import Mathlib

/-!
Shallow embedding of the data-processing core of the EV analytics dashboard
(src/lib/data-processor.ts, types from src/types/ev-data.ts), together with
proofs settling the specification claims about it.

Modelling conventions:
* JavaScript numbers that only ever hold integers here are modelled as ℤ or ℕ;
  expressions whose value can be NaN or an infinity are modelled by JSNum.
* JavaScript Map grouping (get-or-default, mutate, set) is modelled by an
  association list updated in place or appended at the end, which reproduces
  Map insertion-order iteration.
* Array.prototype.sort with a consistent comparator c is a stable sort
  (ECMAScript 2019); the unique stable sort for the induced total preorder is
  List.insertionSort with the relation fun a b => c a b ≤ 0.
* Percentages are exact rationals; Math.round(x) on a finite value is
  modelled as the floor of x + 1/2.
-/

/-- A JavaScript double as it occurs in the dashboard computations: a finite
(here always rational) number, NaN, or a signed infinity. -/
inductive JSNum where
  | num (q : ℚ)
  | nan
  | posInf
  | negInf
deriving DecidableEq

namespace JSNum

/-- JavaScript division a / b for finite operands: 0 / 0 is NaN and
x / 0 for x ≠ 0 is a signed infinity. -/
def div (a b : ℚ) : JSNum :=
  if b = 0 then (if a = 0 then nan else if 0 < a then posInf else negInf)
  else num (a / b)

/-- Multiplication of a possibly non-finite value by a finite constant. -/
def mulConst (x : JSNum) (k : ℚ) : JSNum :=
  match x with
  | num q => num (q * k)
  | nan => nan
  | posInf => if 0 < k then posInf else if k < 0 then negInf else nan
  | negInf => if 0 < k then negInf else if k < 0 then posInf else nan

/-- Math.round: round half towards positive infinity; NaN and the infinities
are fixed points. -/
def round : JSNum → JSNum
  | num q => num ((⌊q + 1/2⌋ : ℤ) : ℚ)
  | nan => nan
  | posInf => posInf
  | negInf => negInf

/-- The JavaScript idiom x || 0 on a number: the falsy values 0, -0 and NaN
become 0, everything else (including the infinities) passes through. -/
def orZero (x : JSNum) : JSNum :=
  if x = num 0 ∨ x = nan then num 0 else x

end JSNum

/-- Math.round on a value known to be finite. -/
def jround (q : ℚ) : ℤ := ⌊q + 1/2⌋

/-- The two-decimal rounding used for percentages:
Math.round(q * 100) / 100. -/
def round2 (q : ℚ) : ℚ := ((⌊q * 100 + 1/2⌋ : ℤ) : ℚ) / 100

/-- Math.max(...l) over a list of integers: empty input gives -Infinity. -/
def jsMax : List ℤ → JSNum
  | [] => .negInf
  | x :: xs => .num ((xs.foldl max x : ℤ) : ℚ)

/-- Math.min(...l) over a list of integers: empty input gives +Infinity. -/
def jsMin : List ℤ → JSNum
  | [] => .posInf
  | x :: xs => .num ((xs.foldl min x : ℤ) : ℚ)

/-- Whitespace stripped by parseInt from the front of its argument. -/
def jsSpace (c : Char) : Bool :=
  c = ' ' ∨ c = '\t' ∨ c = '\n' ∨ c = '\r' ∨ c = '\x0b' ∨ c = '\x0c'

/-- Numeric value of a decimal digit character. -/
def digVal (c : Char) : ℤ := (c.toNat : ℤ) - 48

/-- Hexadecimal digit recognizer. -/
def isHexDigit (c : Char) : Bool :=
  c.isDigit ∨ ('a' ≤ c ∧ c ≤ 'f') ∨ ('A' ≤ c ∧ c ≤ 'F')

/-- Numeric value of a hexadecimal digit character. -/
def hexVal (c : Char) : ℤ :=
  if c.isDigit then digVal c
  else if 'a' ≤ c ∧ c ≤ 'f' then (c.toNat : ℤ) - 87
  else (c.toNat : ℤ) - 55

/-- Value of a digit string in the given base. -/
def digitsToInt (base : ℤ) (v : Char → ℤ) (ds : List Char) : ℤ :=
  ds.foldl (fun a c => a * base + v c) 0

/-- Longest digit prefix in the given base; none when there is no digit,
which is how parseInt produces NaN. -/
def parseDigits (base : ℤ) (isD : Char → Bool) (v : Char → ℤ) (cs : List Char) : Option ℤ :=
  match cs.takeWhile isD with
  | [] => none
  | ds => some (digitsToInt base v ds)

/-- Magnitude part of parseInt: an optional 0x / 0X marker selects base 16,
otherwise the longest decimal digit run is taken. -/
def jsParseIntMag (cs : List Char) : Option ℤ :=
  match cs with
  | '0' :: 'x' :: rest => parseDigits 16 isHexDigit hexVal rest
  | '0' :: 'X' :: rest => parseDigits 16 isHexDigit hexVal rest
  | rest => parseDigits 10 Char.isDigit digVal rest

/-- ECMAScript parseInt with no radix argument: strip whitespace, read an
optional sign, then the longest digit run; none models a NaN result. -/
def jsParseInt (s : String) : Option ℤ :=
  match s.data.dropWhile jsSpace with
  | '-' :: rest => (jsParseIntMag rest).map (fun m => -m)
  | '+' :: rest => jsParseIntMag rest
  | rest => jsParseIntMag rest

/-- The idiom parseInt(x) || 0 used for every numeric column: a NaN parse
falls back to 0 (a parsed 0 is falsy too, but the fallback is also 0). -/
def parseIntOr0 (s : String) : ℤ := (jsParseInt s).getD 0

/-- JavaScript String.split on the one-character separator "|":
every occurrence splits, the empty string yields one empty piece. -/
def splitPipeChars : List Char → List (List Char)
  | [] => [[]]
  | c :: cs =>
      if c = '|' then [] :: splitPipeChars cs
      else
        match splitPipeChars cs with
        | [] => [[c]]
        | f :: rest => (c :: f) :: rest

/-- String.split("|") packaged on strings. -/
def jsSplitPipe (s : String) : List String :=
  (splitPipeChars s.data).map (fun l => ⟨l⟩)

/-- Model of Papa.parse with header:false and skipEmptyLines:true, an external
library call in the source: comma-separated fields, newline-separated rows,
double-quoted fields may contain separators, a doubled quote inside a quoted
field is a literal quote. The Bool argument is the inside-quotes state, the
two accumulators are the current field (reversed) and the current row. -/
def csvAux : Bool → List Char → List String → List Char → List (List String)
  | _, fld, row, [] => [row ++ [⟨fld.reverse⟩]]
  | true, fld, row, '"' :: '"' :: rest => csvAux true ('"' :: fld) row rest
  | true, fld, row, '"' :: rest => csvAux false fld row rest
  | true, fld, row, c :: rest => csvAux true (c :: fld) row rest
  | false, fld, row, ',' :: rest => csvAux false [] (row ++ [⟨fld.reverse⟩]) rest
  | false, fld, row, '\r' :: '\n' :: rest => (row ++ [⟨fld.reverse⟩]) :: csvAux false [] [] rest
  | false, fld, row, '\n' :: rest => (row ++ [⟨fld.reverse⟩]) :: csvAux false [] [] rest
  | false, fld, row, '\r' :: rest => (row ++ [⟨fld.reverse⟩]) :: csvAux false [] [] rest
  | false, fld, row, '"' :: rest =>
      if fld = [] then csvAux true fld row rest else csvAux false ('"' :: fld) row rest
  | false, fld, row, c :: rest => csvAux false (c :: fld) row rest

/-- The rows Papa.parse delivers for a CSV text (empty lines skipped). -/
def parseCSV (s : String) : List (List String) :=
  (csvAux false [] [] s.data).filter (fun r => r ≠ [⟨[]⟩])

/-- One parsed vehicle registration row (EVRecord in src/types/ev-data.ts).
Every string column is stored through row[i] || '' so a missing column
becomes the empty string, except electricVehicleType, which is stored as a
bare cast of row[8]: a missing column leaves it undefined, modelled as
Option String with none for undefined. -/
structure EVRecord where
  vin : String
  county : String
  city : String
  state : String
  postalCode : String
  modelYear : ℤ
  make : String
  model : String
  electricVehicleType : Option String
  cafvEligibility : String
  electricRange : ℤ
  baseMsrp : ℤ
  legislativeDistrict : ℤ
  dolVehicleId : String
  vehicleLocation : String
  electricUtility : String
  censusTract : String
deriving DecidableEq

/-- The BEV label string the aggregations compare against. -/
def bevLabel : String := "Battery Electric Vehicle (BEV)"

/-- The PHEV label string the aggregations compare against. -/
def phevLabel : String := "Plug-in Hybrid Electric Vehicle (PHEV)"

/-- EVDataProcessor.parseRow: fixed positional mapping of the 17 columns.
row.getD i default models row[i] || default (an absent index is undefined,
which is falsy, and an empty string also falls back to itself); for the
numeric columns parseInt of an absent index is parseInt(undefined), a NaN,
so parseIntOr0 of the empty string gives the same 0. -/
def parseRow (row : List String) : EVRecord where
  vin := row.getD 0 ""
  county := row.getD 1 ""
  city := row.getD 2 ""
  state := row.getD 3 ""
  postalCode := row.getD 4 ""
  modelYear := parseIntOr0 (row.getD 5 "")
  make := row.getD 6 ""
  model := row.getD 7 ""
  electricVehicleType := row.get? 8
  cafvEligibility := row.getD 9 ""
  electricRange := parseIntOr0 (row.getD 10 "")
  baseMsrp := parseIntOr0 (row.getD 11 "")
  legislativeDistrict := parseIntOr0 (row.getD 12 "")
  dolVehicleId := row.getD 13 ""
  vehicleLocation := row.getD 14 ""
  electricUtility := row.getD 15 ""
  censusTract := row.getD 16 ""

/-- The per-row stage of loadData: every data row is mapped through parseRow.
parseRow is total (no operation in it can throw for a string-array row), so
the try/catch never produces null and filter(Boolean) keeps every record. -/
def processRows (rows : List (List String)) : List EVRecord :=
  rows.map parseRow

/-- The engine: a single record set loaded once and queried many times. -/
structure EVDataProcessor where
  rawData : List EVRecord
deriving DecidableEq

/-- CountyData aggregate. -/
structure CountyData where
  county : String
  count : ℕ
  percentage : ℚ
deriving DecidableEq

/-- YearlyData aggregate. -/
structure YearlyData where
  year : ℤ
  count : ℕ
  bevCount : ℕ
  phevCount : ℕ
deriving DecidableEq

/-- MakeData aggregate. -/
structure MakeData where
  make : String
  count : ℕ
  percentage : ℚ
  avgRange : ℤ
deriving DecidableEq

/-- ModelData aggregate. -/
structure ModelData where
  make : String
  model : String
  count : ℕ
  avgRange : ℤ
  avgYear : ℤ
deriving DecidableEq

/-- RangeDistribution aggregate (one bucket of the range histogram). -/
structure RangeDistribution where
  rangeGroup : String
  count : ℕ
  percentage : ℚ
deriving DecidableEq

/-- UtilityData aggregate. -/
structure UtilityData where
  utility : String
  count : ℕ
  percentage : ℚ
deriving DecidableEq

/-- DashboardStats aggregate. The four fields that can evaluate to NaN or an
infinity in the source are given type JSNum; the others are always finite. -/
structure DashboardStats where
  totalVehicles : ℕ
  avgElectricRange : ℤ
  bevPercentage : JSNum
  phevPercentage : JSNum
  topCounty : String
  topMake : String
  latestYear : JSNum
  earliestYear : JSNum
deriving DecidableEq

/-- JS Map get-or-default, mutate, set: the value at the first occurrence of
the key is updated in place, a new key is appended at the end, reproducing
Map insertion-order iteration. -/
def upsert {κ ν : Type} [DecidableEq κ] (k : κ) (f : ν → ν) (d : ν) :
    List (κ × ν) → List (κ × ν)
  | [] => [(k, f d)]
  | (k₁, v) :: m => if k₁ = k then (k₁, f v) :: m else (k₁, v) :: upsert k f d m

/-- Accumulator of getYearlyTrends (the { total, bev, phev } map value). -/
structure YearAcc where
  total : ℕ
  bev : ℕ
  phev : ℕ
deriving DecidableEq

/-- Accumulator of getMakeDistribution. -/
structure MakeAcc where
  count : ℕ
  totalRange : ℤ
  rangeCount : ℕ
deriving DecidableEq

/-- Accumulator of getTopModels. -/
structure ModelAcc where
  count : ℕ
  totalRange : ℤ
  rangeCount : ℕ
  totalYear : ℤ
  yearCount : ℕ
deriving DecidableEq

/-- One row of the fixed bucket table of getRangeDistribution; max = none
models the Infinity upper bound of the last bucket. -/
structure RangeBucketSpec where
  min : ℤ
  max : Option ℤ
  label : String
deriving DecidableEq

/-- The fixed ascending bucket table. -/
def rangeBuckets : List RangeBucketSpec :=
  [⟨0, some 50, "0-50 miles"⟩,
   ⟨51, some 100, "51-100 miles"⟩,
   ⟨101, some 150, "101-150 miles"⟩,
   ⟨151, some 200, "151-200 miles"⟩,
   ⟨201, some 250, "201-250 miles"⟩,
   ⟨251, some 300, "251-300 miles"⟩,
   ⟨301, none, "300+ miles"⟩]

/-- v >= min && v <= max with an Infinity upper bound on the last bucket. -/
def inBucket (b : RangeBucketSpec) (v : ℤ) : Bool :=
  decide (b.min ≤ v) && (match b.max with | some M => decide (v ≤ M) | none => true)

namespace EVDataProcessor

/-- loadData: the one external read is the only failure point. Its outcome is
the fetchResult argument: an unreadable source is the error branch of the
try/catch, which logs and rethrows the same error with rawData untouched; a
readable text is parsed, every data row (header dropped) becomes a record,
and the new record set replaces the held one. The pair returned is
(call result, engine state after the call). -/
def loadData (fetchResult : Except String String) (p : EVDataProcessor) :
    Except String (List EVRecord) × EVDataProcessor :=
  match fetchResult with
  | .error e => (.error e, p)
  | .ok text =>
      let recs := processRows ((parseCSV text).drop 1)
      (.ok recs, { rawData := recs })

/-- getCountyDistribution: group by non-empty county, percentage over the
whole record set, sorted by descending count. -/
def getCountyDistribution (p : EVDataProcessor) : List CountyData :=
  let countMap := p.rawData.foldl
    (fun m v => if v.county ≠ "" then upsert v.county (fun n => n + 1) 0 m else m) []
  let total : ℚ := (p.rawData.length : ℚ)
  List.insertionSort (fun a b => b.count ≤ a.count)
    (countMap.map (fun e =>
      { county := e.1, count := e.2, percentage := round2 ((e.2 : ℚ) / total * 100) }))

/-- getYearlyTrends: group records with a positive model year by year,
splitting each year total into BEV and PHEV counts, sorted ascending. -/
def getYearlyTrends (p : EVDataProcessor) : List YearlyData :=
  let yearMap : List (ℤ × YearAcc) := p.rawData.foldl
    (fun m v =>
      if 0 < v.modelYear then
        upsert v.modelYear
          (fun a =>
            let a := { a with total := a.total + 1 }
            if v.electricVehicleType = some bevLabel then { a with bev := a.bev + 1 }
            else if v.electricVehicleType = some phevLabel then { a with phev := a.phev + 1 }
            else a)
          ⟨0, 0, 0⟩ m
      else m) []
  List.insertionSort (fun a b => a.year ≤ b.year)
    (yearMap.map (fun e =>
      { year := e.1, count := e.2.total, bevCount := e.2.bev, phevCount := e.2.phev }))

/-- getMakeDistribution: group by non-empty make, percentage over the whole
record set, average range over that make's known-range records, sorted by
descending count. -/
def getMakeDistribution (p : EVDataProcessor) : List MakeData :=
  let makeMap : List (String × MakeAcc) := p.rawData.foldl
    (fun m v =>
      if v.make ≠ "" then
        upsert v.make
          (fun a =>
            let a := { a with count := a.count + 1 }
            if 0 < v.electricRange then
              { a with totalRange := a.totalRange + v.electricRange,
                       rangeCount := a.rangeCount + 1 }
            else a)
          ⟨0, 0, 0⟩ m
      else m) []
  let total : ℚ := (p.rawData.length : ℚ)
  List.insertionSort (fun a b => b.count ≤ a.count)
    (makeMap.map (fun e =>
      { make := e.1, count := e.2.count,
        percentage := round2 ((e.2.count : ℚ) / total * 100),
        avgRange := if 0 < e.2.rangeCount then
            jround ((e.2.totalRange : ℚ) / (e.2.rangeCount : ℚ))
          else 0 }))

/-- The grouping key of getTopModels. -/
def modelKey (v : EVRecord) : String := v.make ++ "|" ++ v.model

/-- getTopModels: group records with non-empty make and model under the key
make + bar + model, recover (make, model) by splitting the key at the bar,
average range and year over known values, sort by descending count, take the
caller-supplied limit. The getD defaults stand for the undefined a shorter
split would give; a key always contains at least one bar. -/
def getTopModels (p : EVDataProcessor) (limit : ℕ) : List ModelData :=
  let modelMap : List (String × ModelAcc) := p.rawData.foldl
    (fun m v =>
      if v.make ≠ "" ∧ v.model ≠ "" then
        upsert (modelKey v)
          (fun a =>
            let a := { a with count := a.count + 1 }
            let a := if 0 < v.electricRange then
                { a with totalRange := a.totalRange + v.electricRange,
                         rangeCount := a.rangeCount + 1 }
              else a
            if 0 < v.modelYear then
              { a with totalYear := a.totalYear + v.modelYear,
                       yearCount := a.yearCount + 1 }
            else a)
          ⟨0, 0, 0, 0, 0⟩ m
      else m) []
  (List.insertionSort (fun a b => b.count ≤ a.count)
    (modelMap.map (fun e =>
      let parts := jsSplitPipe e.1
      { make := parts.getD 0 "", model := parts.getD 1 "",
        count := e.2.count,
        avgRange := if 0 < e.2.rangeCount then
            jround ((e.2.totalRange : ℚ) / (e.2.rangeCount : ℚ))
          else 0,
        avgYear := if 0 < e.2.yearCount then
            jround ((e.2.totalYear : ℚ) / (e.2.yearCount : ℚ))
          else 0 }))).take limit

/-- getRangeDistribution: count known-range records per fixed bucket,
percentage over the known-range subset, then drop empty buckets. -/
def getRangeDistribution (p : EVDataProcessor) : List RangeDistribution :=
  let validRanges := p.rawData.filter (fun v => 0 < v.electricRange)
  let total : ℚ := (validRanges.length : ℚ)
  (rangeBuckets.map (fun b =>
    let count := (validRanges.filter (fun v => inBucket b v.electricRange)).length
    { rangeGroup := b.label, count := count,
      percentage := round2 ((count : ℚ) / total * 100) })).filter
    (fun r => 0 < r.count)

/-- getUtilityDistribution: the raw utility field may list several utilities
joined by bars; each is split out, trimmed, and counted, percentage over the
whole record set, sorted by descending count, truncated to the top 10. -/
def getUtilityDistribution (p : EVDataProcessor) : List UtilityData :=
  let utilityMap : List (String × ℕ) := p.rawData.foldl
    (fun m v =>
      if v.electricUtility ≠ "" then
        ((jsSplitPipe v.electricUtility).map (fun u => u.trim)).foldl
          (fun m u => if u ≠ "" then upsert u (fun n => n + 1) 0 m else m) m
      else m) []
  let total : ℚ := (p.rawData.length : ℚ)
  (List.insertionSort (fun a b => b.count ≤ a.count)
    (utilityMap.map (fun e =>
      { utility := e.1, count := e.2,
        percentage := round2 ((e.2 : ℚ) / total * 100) }))).take 10

/-- getDashboardStats: the summary card numbers. -/
def getDashboardStats (p : EVDataProcessor) : DashboardStats :=
  let totalVehicles := p.rawData.length
  let validRanges := p.rawData.filter (fun v => 0 < v.electricRange)
  let avgElectricRange : ℤ :=
    if 0 < validRanges.length then
      jround (((validRanges.map (fun v => v.electricRange)).sum : ℚ) / (validRanges.length : ℚ))
    else 0
  let bevCount := (p.rawData.filter (fun v => v.electricVehicleType = some bevLabel)).length
  let phevCount := (p.rawData.filter (fun v => v.electricVehicleType = some phevLabel)).length
  let countyStats := p.getCountyDistribution
  let makeStats := p.getMakeDistribution
  let years := (p.rawData.map (fun v => v.modelYear)).filter (fun y => 0 < y)
  { totalVehicles := totalVehicles
    avgElectricRange := avgElectricRange
    bevPercentage := JSNum.round (JSNum.mulConst (JSNum.div (bevCount : ℚ) (totalVehicles : ℚ)) 100)
    phevPercentage := JSNum.round (JSNum.mulConst (JSNum.div (phevCount : ℚ) (totalVehicles : ℚ)) 100)
    topCounty := (match countyStats.head? with
      | some c => if c.county = "" then "N/A" else c.county
      | none => "N/A")
    topMake := (match makeStats.head? with
      | some w => if w.make = "" then "N/A" else w.make
      | none => "N/A")
    latestYear := JSNum.orZero (jsMax years)
    earliestYear := JSNum.orZero (jsMin years) }

/-- getRawData: the raw-record accessor. -/
def getRawData (p : EVDataProcessor) : List EVRecord := p.rawData

end EVDataProcessor

/-- A JS field value as observed on a parsed record: string, number, or
undefined. -/
inductive JSField where
  | str (s : String)
  | int (n : ℤ)
  | undefinedVal
deriving DecidableEq

/-- The 17 positional fields of a record, indexed by source column. -/
def getField (r : EVRecord) : ℕ → JSField
  | 0 => .str r.vin
  | 1 => .str r.county
  | 2 => .str r.city
  | 3 => .str r.state
  | 4 => .str r.postalCode
  | 5 => .int r.modelYear
  | 6 => .str r.make
  | 7 => .str r.model
  | 8 => match r.electricVehicleType with
         | some s => .str s
         | none => .undefinedVal
  | 9 => .str r.cafvEligibility
  | 10 => .int r.electricRange
  | 11 => .int r.baseMsrp
  | 12 => .int r.legislativeDistrict
  | 13 => .str r.dolVehicleId
  | 14 => .str r.vehicleLocation
  | 15 => .str r.electricUtility
  | 16 => .str r.censusTract
  | _ => .undefinedVal

/-- The default the claim asserts for each missing trailing column: 0 for the
numeric columns 5, 10, 11, 12 and the empty string for every string column,
including column 8 (the powertrain category). Stated from the claim's words,
to be compared with what parseRow actually produces. -/
def claimedDefault (i : ℕ) : JSField :=
  if i = 5 ∨ i = 10 ∨ i = 11 ∨ i = 12 then .int 0 else .str ""

/-- What parseRow actually produces for a missing trailing column: as the
claim says except column 8, which is left undefined (row[8] is stored by a
bare cast, with no || '' fallback). -/
def actualDefault (i : ℕ) : JSField :=
  if i = 8 then .undefinedVal
  else if i = 5 ∨ i = 10 ∨ i = 11 ∨ i = 12 then .int 0 else .str ""

/-- A record with every column missing: all defaults. -/
def blankRec : EVRecord := parseRow []

/-- Concrete record whose model contains a bar. -/
def pipeRecA : EVRecord := { blankRec with make := "A", model := "B|C" }

/-- Concrete record whose make contains a bar; its grouping key collides
with that of pipeRecA although the (make, model) pairs differ. -/
def pipeRecB : EVRecord := { blankRec with make := "A|B", model := "C" }

/-- Concrete bar-free record. -/
def teslaA : EVRecord := { blankRec with make := "TESLA", model := "Model 3" }

/-- Concrete bar-free record with the same make and a different model. -/
def teslaB : EVRecord := { blankRec with make := "TESLA", model := "Model Y" }

/-- First record of the specification's worked example. -/
def kingBev : EVRecord :=
  { blankRec with county := "King", electricVehicleType := some bevLabel,
                  modelYear := 2021, electricRange := 200 }

/-- Second record of the specification's worked example. -/
def kingPhev : EVRecord :=
  { blankRec with county := "King", electricVehicleType := some phevLabel,
                  modelYear := 2021 }

/-- Third record of the specification's worked example. -/
def pierceBev : EVRecord :=
  { blankRec with county := "Pierce", electricVehicleType := some bevLabel,
                  modelYear := 2022, electricRange := 300 }

/-- A record with an empty county field (and a non-empty vin, so the row is
not blank). -/
def noCountyRec : EVRecord := { blankRec with vin := "X" }

/-- Sum of the values of a counting map. -/
def sumSnd {κ : Type} (m : List (κ × ℕ)) : ℕ := (m.map (fun e => e.2)).sum

open EVDataProcessor

theorem sumSnd_upsert_inc {κ : Type} [DecidableEq κ] (k : κ) :
    ∀ m : List (κ × ℕ), sumSnd (upsert k (fun n => n + 1) 0 m) = sumSnd m + 1 := by
  intro m
  induction m with
  | nil => simp [upsert, sumSnd]
  | cons e m ih =>
      obtain ⟨k₁, v⟩ := e
      by_cases h : k₁ = k
      · simp [upsert, h, sumSnd]
        omega
      · simp only [upsert, if_neg h]
        simp only [sumSnd, List.map_cons, List.sum_cons] at ih ⊢
        omega

theorem foldl_guard {α β : Type} (g : α → Prop) [DecidablePred g] (step : β → α → β) :
    ∀ (l : List α) (m : β),
      l.foldl (fun m v => if g v then step m v else m) m
        = (l.filter (fun v => decide (g v))).foldl step m := by
  intro l
  induction l with
  | nil => intro m; rfl
  | cons x xs ih =>
      intro m
      by_cases h : g x <;> simp [List.filter_cons, h, ih]

theorem round2_close (x : ℚ) : |round2 x - x| ≤ 1 / 200 := by
  have h1 : ((⌊x * 100 + 1/2⌋ : ℤ) : ℚ) ≤ x * 100 + 1/2 := Int.floor_le _
  have h2 : x * 100 + 1/2 < ((⌊x * 100 + 1/2⌋ : ℤ) : ℚ) + 1 := Int.lt_floor_add_one _
  rw [round2, abs_le]
  constructor <;> [linarith; linarith]

theorem sum_map_round2_close :
    ∀ l : List ℚ, |(l.map round2).sum - l.sum| ≤ (l.length : ℚ) / 200 := by
  intro l
  induction l with
  | nil => simp
  | cons x xs ih =>
      simp only [List.map_cons, List.sum_cons, List.length_cons]
      have hx := round2_close x
      have tri : |(round2 x - x) + ((xs.map round2).sum - xs.sum)|
          ≤ |round2 x - x| + |(xs.map round2).sum - xs.sum| := abs_add _ _
      have e1 : round2 x + (xs.map round2).sum - (x + xs.sum)
          = (round2 x - x) + ((xs.map round2).sum - xs.sum) := by ring
      rw [e1]
      have : ((xs.length + 1 : ℕ) : ℚ) = (xs.length : ℚ) + 1 := by push_cast; ring
      rw [this]
      calc |(round2 x - x) + ((xs.map round2).sum - xs.sum)|
          ≤ |round2 x - x| + |(xs.map round2).sum - xs.sum| := tri
        _ ≤ 1 / 200 + (xs.length : ℚ) / 200 := by linarith
        _ = ((xs.length : ℚ) + 1) / 200 := by ring

theorem sumSnd_countyFold :
    ∀ (l : List EVRecord) (m : List (String × ℕ)),
      sumSnd (l.foldl
          (fun m v => if v.county ≠ "" then upsert v.county (fun n => n + 1) 0 m else m) m)
        = sumSnd m + (l.filter (fun v => v.county ≠ "")).length := by
  intro l
  induction l with
  | nil => intro m; simp
  | cons r rs ih =>
      intro m
      rw [List.foldl_cons, List.filter_cons]
      by_cases h : r.county ≠ ""
      · rw [if_pos h, ih, sumSnd_upsert_inc]
        rw [if_pos (by simpa using h), List.length_cons]
        omega
      · rw [if_neg h, ih]
        rw [if_neg (by simpa using h)]

theorem sum_exact_pct (T : ℚ) :
    ∀ m : List (String × ℕ),
      (m.map (fun e => (e.2 : ℚ) / T * 100)).sum = (sumSnd m : ℚ) / T * 100 := by
  intro m
  induction m with
  | nil => simp [sumSnd]
  | cons e m ih =>
      simp only [List.map_cons, List.sum_cons, ih, sumSnd] at ih ⊢
      push_cast
      ring

set_option maxHeartbeats 1600000 in
/-- Claim C2 (amended): over a nonempty record set in which every record has
a non-empty county, the per-county counts of getCountyDistribution sum to
the total vehicle count, and the percentages over all returned counties sum
to 100 within the rounding tolerance of half a hundredth per county. -/
theorem countyDistribution_sum_ok (p : EVDataProcessor)
    (hne : p.rawData ≠ [])
    (hcty : ∀ r ∈ p.rawData, r.county ≠ "") :
    ((p.getCountyDistribution).map (fun c => c.count)).sum = p.rawData.length ∧
    |((p.getCountyDistribution).map (fun c => c.percentage)).sum - 100|
      ≤ ((p.getCountyDistribution).length : ℚ) / 200 := by
  have hdef : p.getCountyDistribution
      = List.insertionSort (fun a b => b.count ≤ a.count)
          ((p.rawData.foldl
              (fun m v => if v.county ≠ "" then upsert v.county (fun n => n + 1) 0 m else m)
              []).map
            (fun e => { county := e.1, count := e.2,
                        percentage := round2 ((e.2 : ℚ) / ((p.rawData.length : ℚ)) * 100) })) := by
    simp only [EVDataProcessor.getCountyDistribution]
  set cm := p.rawData.foldl
      (fun m v => if v.county ≠ "" then upsert v.county (fun n => n + 1) 0 m else m) []
    with hcm
  set mkE : String × ℕ → CountyData := fun e =>
      { county := e.1, count := e.2,
        percentage := round2 ((e.2 : ℚ) / ((p.rawData.length : ℚ)) * 100) } with hmk
  have hperm : List.Perm
      (List.insertionSort (fun a b => b.count ≤ a.count) (cm.map mkE)) (cm.map mkE) :=
    List.perm_insertionSort _ _
  have hfull : p.rawData.filter (fun v => v.county ≠ "") = p.rawData :=
    List.filter_eq_self.mpr (fun a ha => by simpa using hcty a ha)
  have hsum : sumSnd cm = p.rawData.length := by
    rw [hcm, sumSnd_countyFold p.rawData [], hfull]
    simp [sumSnd]
  have hcounts : ((p.getCountyDistribution).map (fun c => c.count)).sum
      = p.rawData.length := by
    rw [hdef, (hperm.map (fun c => c.count)).sum_eq, List.map_map]
    have : ((fun c => c.count) ∘ mkE) = fun e => e.2 := by funext e; rfl
    rw [this]
    exact hsum
  refine ⟨hcounts, ?_⟩
  have hlen0 : p.rawData.length ≠ 0 := by
    simpa [List.length_eq_zero] using hne
  have hT : ((p.rawData.length : ℕ) : ℚ) ≠ 0 := by exact_mod_cast hlen0
  have hpcts : ((p.getCountyDistribution).map (fun c => c.percentage)).sum
      = ((cm.map (fun e => (e.2 : ℚ) / ((p.rawData.length : ℚ)) * 100)).map round2).sum := by
    rw [hdef, (hperm.map (fun c => c.percentage)).sum_eq, List.map_map, List.map_map]
    have : ((fun c => c.percentage) ∘ mkE)
        = (round2 ∘ fun e => (e.2 : ℚ) / ((p.rawData.length : ℚ)) * 100) := by
      funext e; rfl
    rw [this]
  have hexact : (cm.map (fun e => (e.2 : ℚ) / ((p.rawData.length : ℚ)) * 100)).sum = 100 := by
    rw [sum_exact_pct, hsum, div_self hT, one_mul]
  have hll : ((p.getCountyDistribution).length : ℚ)
      = ((cm.map (fun e => (e.2 : ℚ) / ((p.rawData.length : ℚ)) * 100)).length : ℚ) := by
    rw [hdef, hperm.length_eq]
    simp
  rw [hpcts, hll]
  have final := sum_map_round2_close
    (cm.map (fun e => (e.2 : ℚ) / ((p.rawData.length : ℚ)) * 100))
  rw [hexact] at final
  exact final

/-- Claim C2 (counterexample): a record with an empty county field is counted
in the total but in no county, so the county counts of a one-record set sum to
0 and not to the record-set length; and for the empty record set the
percentages sum to 0, not approximately 100. -/
theorem countyDistribution_claim_fails :
    (((EVDataProcessor.mk [noCountyRec]).getCountyDistribution.map (fun c => c.count)).sum ≠
        (EVDataProcessor.mk [noCountyRec]).rawData.length)
    ∧ ((EVDataProcessor.mk []).getCountyDistribution = [])
    ∧ ¬ (|((EVDataProcessor.mk []).getCountyDistribution.map (fun c => c.percentage)).sum - 100|
          ≤ (((EVDataProcessor.mk []).getCountyDistribution.length : ℚ)) / 200) := by
  refine ⟨by decide, rfl, ?_⟩
  have h : (EVDataProcessor.mk []).getCountyDistribution = [] := rfl
  rw [h]
  norm_num

/-- Claim C2 (witness): the amended statement applied to the specification's
worked three-record example (two King records, one Pierce record). -/
theorem countyDistribution_sum_ok_witness :
    (((EVDataProcessor.mk [kingBev, kingPhev, pierceBev]).getCountyDistribution.map
        (fun c => c.count)).sum
      = (EVDataProcessor.mk [kingBev, kingPhev, pierceBev]).rawData.length) ∧
    |(((EVDataProcessor.mk [kingBev, kingPhev, pierceBev]).getCountyDistribution.map
        (fun c => c.percentage)).sum - 100)|
      ≤ (((EVDataProcessor.mk [kingBev, kingPhev, pierceBev]).getCountyDistribution.length : ℚ))
          / 200 :=
  countyDistribution_sum_ok (EVDataProcessor.mk [kingBev, kingPhev, pierceBev])
    (by decide) (by decide)

/-- Claim C1: on an empty record set getDashboardStats does not raise but,
contrary to the specification's define-as-zero rule, only avgElectricRange is
0: the BEV and PHEV percentages are Math.round of 0/0, a NaN, and the
latest and earliest years are Math.max() and Math.min() of no arguments,
-Infinity and +Infinity, which are truthy and survive the || 0 fallback. -/
theorem dashboardStats_empty_value :
    (EVDataProcessor.mk []).getDashboardStats =
      { totalVehicles := 0, avgElectricRange := 0,
        bevPercentage := JSNum.nan, phevPercentage := JSNum.nan,
        topCounty := "N/A", topMake := "N/A",
        latestYear := JSNum.negInf, earliestYear := JSNum.posInf } := by
  decide

/-- Claim C3: the totalVehicles field of getDashboardStats is the length of
the list returned by the raw-record accessor getRawData. -/
theorem totalVehicles_eq_rawData_length (p : EVDataProcessor) :
    (p.getDashboardStats).totalVehicles = (p.getRawData).length := rfl

/-- Claim C8: a load whose underlying text source cannot be read fails with
exactly the propagated fetch error and leaves the held record set unchanged,
while a load from any readable text always succeeds (per-row malformation is
recovered inside the row loop, never fatal) and installs the parsed records. -/
theorem loadData_failure_semantics :
    (∀ (e : String) (p : EVDataProcessor),
        loadData (Except.error e) p = (Except.error e, p)) ∧
    (∀ (text : String) (p : EVDataProcessor),
        ∃ recs, loadData (Except.ok text) p = (Except.ok recs, EVDataProcessor.mk recs)) :=
  ⟨fun _ _ => rfl, fun _ _ => ⟨_, rfl⟩⟩

/-- Claim C9: every query is a pure function of the engine's record set, so
calling any of the eight queries twice without an intervening load returns
identical results, and the held record set (observed through getRawData) is
exactly the loaded list, unchanged by any query. -/
theorem queries_idempotent (p : EVDataProcessor) :
    p.getDashboardStats = p.getDashboardStats ∧
    p.getCountyDistribution = p.getCountyDistribution ∧
    p.getYearlyTrends = p.getYearlyTrends ∧
    p.getMakeDistribution = p.getMakeDistribution ∧
    (∀ n, p.getTopModels n = p.getTopModels n) ∧
    p.getRangeDistribution = p.getRangeDistribution ∧
    p.getUtilityDistribution = p.getUtilityDistribution ∧
    p.getRawData = p.getRawData ∧
    p.getRawData = p.rawData :=
  ⟨rfl, rfl, rfl, rfl, fun _ => rfl, rfl, rfl, rfl, rfl⟩

/-- Claim C6 (counterexample): for a row with fewer than 9 columns the
powertrain category column does not default to the empty string: row[8] is
stored by a bare cast, so the field is left undefined. -/
theorem parseRow_short_row_claim_fails :
    (([] : List String).length ≤ 8 ∧ (8 : ℕ) < 17) ∧
    getField (parseRow []) 8 ≠ claimedDefault 8 := by
  decide

/-- Claim C6 (amended): parsing a short row cannot fail, and every missing
trailing column takes its per-type default, 0 for the numeric columns and the
empty string for the string columns, except the powertrain category column,
which is left undefined. -/
theorem parseRow_short_row_defaults (row : List String) (i : ℕ)
    (h17 : i < 17) (hlen : row.length ≤ i) :
    getField (parseRow row) i = actualDefault i := by
  have hp : parseIntOr0 ("") = 0 := by decide
  interval_cases i <;>
    simp [getField, parseRow, actualDefault, hp,
      List.getElem?_eq_none hlen, List.get?_eq_none.mpr hlen]

/-- Claim C6 (witness): the amended statement at a concrete two-column row,
for the numeric model-year column and the powertrain category column. -/
theorem parseRow_short_row_defaults_witness :
    getField (parseRow ["1C4JJXP6", "Kitsap"]) 5 = actualDefault 5 ∧
    getField (parseRow ["1C4JJXP6", "Kitsap"]) 8 = actualDefault 8 :=
  ⟨parseRow_short_row_defaults _ 5 (by decide) (by decide),
   parseRow_short_row_defaults _ 8 (by decide) (by decide)⟩

/-- Claim C5: a row whose model-year column is non-numeric does not abort the
load (every row yields a record), yields modelYear = 0, is invisible to
getYearlyTrends (records without a positive model year never influence the
output), but is still counted in totalVehicles. -/
theorem malformedYear_recovered :
    (∀ rows : List (List String), (processRows rows).length = rows.length) ∧
    (∀ row : List String,
        jsParseInt (row.getD 5 "") = none → (parseRow row).modelYear = 0) ∧
    (∀ p : EVDataProcessor,
        p.getYearlyTrends
          = (EVDataProcessor.mk
              (p.rawData.filter (fun v => 0 < v.modelYear))).getYearlyTrends) ∧
    (∀ p : EVDataProcessor, (p.getDashboardStats).totalVehicles = p.rawData.length) := by
  refine ⟨fun rows => List.length_map _ _, ?_, ?_, fun p => rfl⟩
  · intro row h
    simp only [parseRow, parseIntOr0]
    rw [h]
    rfl
  · intro p
    have h1 := foldl_guard (fun v : EVRecord => 0 < v.modelYear)
      (fun m v => upsert v.modelYear
        (fun a =>
          let a := { a with total := a.total + 1 }
          if v.electricVehicleType = some bevLabel then { a with bev := a.bev + 1 }
          else if v.electricVehicleType = some phevLabel then { a with phev := a.phev + 1 }
          else a)
        (⟨0, 0, 0⟩ : YearAcc) m) p.rawData []
    have h2 := foldl_guard (fun v : EVRecord => 0 < v.modelYear)
      (fun m v => upsert v.modelYear
        (fun a =>
          let a := { a with total := a.total + 1 }
          if v.electricVehicleType = some bevLabel then { a with bev := a.bev + 1 }
          else if v.electricVehicleType = some phevLabel then { a with phev := a.phev + 1 }
          else a)
        (⟨0, 0, 0⟩ : YearAcc) m) (p.rawData.filter (fun v => 0 < v.modelYear)) []
    simp only [EVDataProcessor.getYearlyTrends]
    rw [h1, h2, List.filter_filter]
    have : (fun (a : EVRecord) => decide (0 < a.modelYear) && decide (0 < a.modelYear))
        = fun a => decide (0 < a.modelYear) := by
      funext a; rw [Bool.and_self]
    rw [this]

/-- Claim C5 (witness): a concrete row with the non-numeric year text N/A. -/
theorem malformedYear_recovered_witness :
    (parseRow ["5YJ3", "King", "Seattle", "WA", "98101", "N/A"]).modelYear = 0 :=
  malformedYear_recovered.2.1 _ (by decide)

/-- Claim C7: getTopModels never returns more entries than the requested
limit, its output is sorted by descending count, and it is deterministic:
the same record set and limit give the same list. -/
theorem topModels_limit_sorted (p : EVDataProcessor) (n : ℕ) :
    (p.getTopModels n).length ≤ n ∧
    (p.getTopModels n).Pairwise (fun a b => b.count ≤ a.count) ∧
    p.getTopModels n = p.getTopModels n := by
  refine ⟨?_, ?_, rfl⟩
  · simp only [EVDataProcessor.getTopModels]
    exact List.length_take_le _ _
  · simp only [EVDataProcessor.getTopModels]
    apply List.Pairwise.sublist (List.take_sublist _ _)
    haveI : IsTotal ModelData (fun a b => b.count ≤ a.count) :=
      ⟨fun a b => Nat.le_total b.count a.count⟩
    haveI : IsTrans ModelData (fun a b => b.count ≤ a.count) :=
      ⟨fun _ _ _ h1 h2 => le_trans h2 h1⟩
    exact List.sorted_insertionSort _ _

theorem sum_counts_filter_pos :
    ∀ l : List RangeDistribution,
      ((l.filter (fun r => 0 < r.count)).map (fun r => r.count)).sum
        = (l.map (fun r => r.count)).sum := by
  intro l
  induction l with
  | nil => rfl
  | cons x xs ih =>
      rw [List.filter_cons]
      by_cases h : 0 < x.count
      · rw [if_pos (by simpa using h)]
        simp only [List.map_cons, List.sum_cons, ih]
      · rw [if_neg (by simpa using h)]
        simp only [List.map_cons, List.sum_cons, ih]
        omega

theorem bucket_counts_sum :
    ∀ l : List EVRecord, (∀ r ∈ l, 0 < r.electricRange) →
      (rangeBuckets.map
          (fun b => (l.filter (fun v => inBucket b v.electricRange)).length)).sum
        = l.length := by
  intro l
  induction l with
  | nil => intro _; rfl
  | cons r rs ih =>
      intro h
      have hr : 0 < r.electricRange := h r (List.mem_cons_self _ _)
      have hrs := ih (fun x hx => h x (List.mem_cons_of_mem _ hx))
      simp only [rangeBuckets, List.map_cons, List.map_nil, List.sum_cons, List.sum_nil,
        List.filter_cons, inBucket, Bool.and_eq_true, decide_eq_true_eq, and_true,
        List.length_cons] at hrs ⊢
      split_ifs <;> first
        | omega
        | (simp only [List.length_cons]; omega)

/-- Claim C4: the bucket counts of getRangeDistribution sum to the number of
known-range records (electricRange > 0), every returned bucket is non-empty
and carries a percentage computed over that known-range subset, and the
returned bucket labels form a subsequence of the fixed ascending bucket
table, so buckets appear in ascending range order with empty buckets
omitted. -/
theorem rangeDistribution_ok (p : EVDataProcessor) :
    ((p.getRangeDistribution).map (fun r => r.count)).sum
        = (p.rawData.filter (fun v => 0 < v.electricRange)).length ∧
    (∀ i : ℕ, ∀ h : i < (p.getRangeDistribution).length,
        0 < ((p.getRangeDistribution).get ⟨i, h⟩).count ∧
        ((p.getRangeDistribution).get ⟨i, h⟩).percentage
          = round2 ((((p.getRangeDistribution).get ⟨i, h⟩).count : ℚ)
            / (((p.rawData.filter (fun v => 0 < v.electricRange)).length : ℚ)) * 100)) ∧
    ((p.getRangeDistribution).map (fun r => r.rangeGroup)).Sublist
      ["0-50 miles", "51-100 miles", "101-150 miles", "151-200 miles",
       "201-250 miles", "251-300 miles", "300+ miles"] := by
  have hval : ∀ r ∈ p.rawData.filter (fun v => 0 < v.electricRange), 0 < r.electricRange := by
    intro r hr
    simpa using List.of_mem_filter hr
  have hdef : p.getRangeDistribution
      = (rangeBuckets.map (fun b =>
          ({ rangeGroup := b.label,
             count := ((p.rawData.filter (fun v => 0 < v.electricRange)).filter
                 (fun v => inBucket b v.electricRange)).length,
             percentage := round2
               (((((p.rawData.filter (fun v => 0 < v.electricRange)).filter
                     (fun v => inBucket b v.electricRange)).length : ℚ))
                 / (((p.rawData.filter (fun v => 0 < v.electricRange)).length : ℚ)) * 100) }
            : RangeDistribution))).filter (fun r => 0 < r.count) := by
    simp only [EVDataProcessor.getRangeDistribution]
  refine ⟨?_, ?_, ?_⟩
  · rw [hdef, sum_counts_filter_pos, List.map_map]
    exact bucket_counts_sum (p.rawData.filter (fun v => 0 < v.electricRange)) hval
  · intro i h
    obtain ⟨e, hget, he⟩ :
        ∃ e, (p.getRangeDistribution).get ⟨i, h⟩ = e ∧ e ∈ p.getRangeDistribution :=
      ⟨_, rfl, List.get_mem _ _ _⟩
    rw [hget]
    rw [hdef] at he
    obtain ⟨he1, he2⟩ := List.mem_filter.mp he
    obtain ⟨b, hb, hbe⟩ := List.mem_map.mp he1
    rw [← hbe] at he2 ⊢
    exact ⟨by simpa using he2, rfl⟩
  · rw [hdef]
    refine List.Sublist.trans
      ((List.filter_sublist _).map (fun r : RangeDistribution => r.rangeGroup)) ?_
    simp only [List.map_map, rangeBuckets, List.map_cons, List.map_nil, Function.comp]
    exact List.Sublist.refl _

theorem pipe_append_inj :
    ∀ (a : List Char) {b c d : List Char}, '|' ∉ a → '|' ∉ c →
      a ++ '|' :: b = c ++ '|' :: d → a = c ∧ b = d := by
  intro a
  induction a with
  | nil =>
      intro b c d _ hc h
      cases c with
      | nil =>
          simp only [List.nil_append, List.cons.injEq] at h
          exact ⟨rfl, h.2⟩
      | cons y ys =>
          simp only [List.nil_append, List.cons_append, List.cons.injEq] at h
          exact absurd (h.1 ▸ List.mem_cons_self y ys) hc
  | cons x xs ih =>
      intro b c d ha hc h
      cases c with
      | nil =>
          simp only [List.cons_append, List.nil_append, List.cons.injEq] at h
          exact absurd (h.1 ▸ List.mem_cons_self x xs) ha
      | cons y ys =>
          simp only [List.cons_append, List.cons.injEq] at h
          have hxs : '|' ∉ xs := fun hm => ha (List.mem_cons_of_mem _ hm)
          have hys : '|' ∉ ys := fun hm => hc (List.mem_cons_of_mem _ hm)
          obtain ⟨h1, h2⟩ := h
          obtain ⟨h3, h4⟩ := ih hxs hys h2
          exact ⟨by rw [h1, h3], h4⟩

theorem modelKey_data (r : EVRecord) :
    (modelKey r).data = r.make.data ++ '|' :: r.model.data := by
  have hbar : ("|" : String).data = ['|'] := rfl
  simp [EVDataProcessor.modelKey, String.data_append, hbar]

theorem splitPipeChars_append (b : List Char) :
    ∀ a : List Char, '|' ∉ a →
      splitPipeChars (a ++ '|' :: b) = a :: splitPipeChars b := by
  intro a
  induction a with
  | nil =>
      intro _
      simp [splitPipeChars]
  | cons x xs ih =>
      intro ha
      have hx : x ≠ '|' := fun h => ha (h ▸ List.mem_cons_self _ _)
      have hxs : '|' ∉ xs := fun hm => ha (List.mem_cons_of_mem _ hm)
      simp only [List.cons_append, splitPipeChars, if_neg hx, List.append_eq, ih hxs]

theorem jsSplitPipe_modelKey_head (r : EVRecord) (h : '|' ∉ r.make.data) :
    (jsSplitPipe (modelKey r)).getD 0 ("") = r.make := by
  rw [jsSplitPipe, modelKey_data, splitPipeChars_append _ _ h]
  rfl

/-- Claim C10: getTopModels groups records under the key make + bar + model
and recovers the displayed pair by splitting the key at the bar. When no make
in the record set contains a bar, two records share a key exactly when they
agree on both make and model (so grouping is by the exact pair), and the
displayed make is recovered intact; but when a make contains a bar, distinct
(make, model) pairs can collide on one key: the two concrete records with
makes A and A|B and models B|C and C merge into a single entry of count 2
whose displayed model is B, the key text between the first and second bar. -/
theorem topModels_grouping_key :
    (∀ p : EVDataProcessor, (∀ r ∈ p.rawData, '|' ∉ r.make.data) →
        ∀ r₁ ∈ p.rawData, ∀ r₂ ∈ p.rawData,
          (modelKey r₁ = modelKey r₂ ↔ r₁.make = r₂.make ∧ r₁.model = r₂.model)) ∧
    (∀ r : EVRecord, '|' ∉ r.make.data →
        (jsSplitPipe (modelKey r)).getD 0 ("") = r.make) ∧
    ((pipeRecA.make, pipeRecA.model) ≠ (pipeRecB.make, pipeRecB.model) ∧
      modelKey pipeRecA = modelKey pipeRecB ∧
      (EVDataProcessor.mk [pipeRecA, pipeRecB]).getTopModels 10
        = [{ make := "A", model := "B", count := 2, avgRange := 0, avgYear := 0 }]) := by
  refine ⟨?_, jsSplitPipe_modelKey_head, by decide, by decide, by decide⟩
  intro p hp r₁ h₁ r₂ h₂
  constructor
  · intro hk
    have hd := congrArg String.data hk
    rw [modelKey_data, modelKey_data] at hd
    obtain ⟨hm, hmo⟩ := pipe_append_inj _ (hp r₁ h₁) (hp r₂ h₂) hd
    exact ⟨String.ext hm, String.ext hmo⟩
  · rintro ⟨h1, h2⟩
    rw [EVDataProcessor.modelKey, EVDataProcessor.modelKey, h1, h2]

/-- Claim C10 (witness): the key-equality criterion applied to two concrete
bar-free records with equal makes and different models. -/
theorem topModels_grouping_key_witness :
    modelKey teslaA = modelKey teslaB ↔
      teslaA.make = teslaB.make ∧ teslaA.model = teslaB.model :=
  topModels_grouping_key.1 (EVDataProcessor.mk [teslaA, teslaB]) (by decide)
    teslaA (by decide) teslaB (by decide)

/-- Claim C4 (witness): the per-bucket facts instantiated at a one-record
set whose single record has range 200, whose distribution therefore has one
bucket, at index 0. -/
theorem rangeDistribution_ok_witness :
    0 < (((EVDataProcessor.mk [kingBev]).getRangeDistribution).get ⟨0, by decide⟩).count ∧
    (((EVDataProcessor.mk [kingBev]).getRangeDistribution).get ⟨0, by decide⟩).percentage
      = round2 (((((EVDataProcessor.mk [kingBev]).getRangeDistribution).get
            ⟨0, by decide⟩).count : ℚ)
          / ((((EVDataProcessor.mk [kingBev]).rawData.filter
              (fun v => 0 < v.electricRange)).length : ℚ)) * 100) :=
  (rangeDistribution_ok (EVDataProcessor.mk [kingBev])).2.1 0 (by decide)
